import Mathlib

/-!
Shallow embedding of the echo-detection plugin of node-author-intrusion-echo
(the current variant of the analysis: `process`, `processContainer`,
`processCondition`, `filterTokens`, `inFilter`, `getTestTokens`,
`scoreTokens`, `calculateScore`).

Modelling conventions:
* JavaScript numbers are modelled as `Int`; every quantity handled by this
  plugin (indices, ranges, scores, thresholds) is integral in the
  configurations treated here.  `NaN` and fractional values are outside the
  model.
* A JavaScript value that may be `undefined` is an `Option`; `none` stands
  for `undefined`.  `jsToString` is the `String(value)` coercion performed
  by `RegExp.prototype.test`, which renders `undefined` as `"undefined"`.
* A computation that can throw a runtime `TypeError` returns an `Option`
  result; `none` is the thrown exception.
* `s[i]` bracket indexing on a JavaScript string is `charAt`: any negative
  or out-of-bounds position yields `undefined` (`none`), because a string
  has no property at a negative numeric key.
* JavaScript `RegExp` is modelled by `regexTest` for the fragment of
  patterns the plugin builds: a sequence of literal characters and the
  wildcard dot, optionally anchored by a leading caret and a trailing
  dollar; an unanchored pattern is searched for at every position of the
  subject.  Other metacharacters are treated as literals by the model, so
  statements that depend on regex behaviour of an arbitrary string carry a
  `noSpecials` hypothesis restricting that string to the fragment, on which
  the model agrees with JavaScript.
-/

namespace Echo

/-- Source position handle; built upstream and passed through unchanged. -/
structure Location where
  path : String
  line : Int
  column : Int
deriving DecidableEq

/-- An annotated token produced by the upstream tokenizer. -/
structure Token where
  index : Int
  text : String
  normalized : String
  stem : String
  partOfSpeech : String
  location : Location
deriving DecidableEq

/-- Dynamic field access `token[field]`: the four documented string-valued
fields; any other name reads as `undefined`. -/
def tokenField (t : Token) (field : String) : Option String :=
  if field = "text" then some t.text
  else if field = "normalized" then some t.normalized
  else if field = "stem" then some t.stem
  else if field = "partOfSpeech" then some t.partOfSpeech
  else none

/-- `String(value)` coercion: `undefined` renders as `"undefined"`. -/
def jsToString : Option String → String
  | none => "undefined"
  | some s => s

/-- JavaScript bracket indexing `s[i]` on a string: a negative or
out-of-bounds numeric key has no property, hence `undefined`. -/
def charAt (s : String) (i : Int) : Option Char :=
  if i < 0 then none else s.data.get? i.toNat

/-- JavaScript `String.prototype.substring`: clamps both arguments into
`[0, length]` and swaps them when start exceeds end. -/
def jsSubstring (s : String) (a b : Int) : String :=
  let len : Int := (s.length : Int)
  let a2 := min (max a 0) len
  let b2 := min (max b 0) len
  let lo := min a2 b2
  let hi := max a2 b2
  String.mk ((s.data.drop lo.toNat).take (hi - lo).toNat)

/-- Model of `RegExp` matching at the current position, for the fragment
used by the plugin: literals, the wildcard dot, and a final dollar anchor. -/
def matchHere : List Char → List Char → Bool
  | [], _ => true
  | p :: ps, ts =>
    if p = '$' ∧ ps = [] then ts.isEmpty
    else
      match ts with
      | [] => false
      | t :: ts2 => (decide (p = '.') || decide (p = t)) && matchHere ps ts2

/-- Unanchored search: try `matchHere` at every suffix of the subject. -/
def matchSearch (ps : List Char) : List Char → Bool
  | [] => matchHere ps []
  | t :: ts => matchHere ps (t :: ts) || matchSearch ps ts

/-- Model of `RegExp(pattern).test(value)` on the supported fragment: a
leading caret anchors the match at the start, otherwise the pattern is
searched anywhere in the subject. -/
def regexTest (pattern : String) (value : String) : Bool :=
  match pattern.data with
  | [] => matchSearch [] value.data
  | p :: ps => if p = '^' then matchHere ps value.data else matchSearch (p :: ps) value.data

/-- The JavaScript regex metacharacters.  The model treats the ones it does
not implement as literals, so faithfulness hypotheses exclude all of them. -/
def specialChars : List Char := ".^$*+?()[]\x7b\x7d|\\".data

/-- The string uses no regex metacharacter, so the model's matching of the
pattern built from it agrees with JavaScript. -/
def noSpecials (v : String) : Prop := ∀ c ∈ v.data, c ∉ specialChars

/-- Filter options of the current schema: a field name and an optional list
of pattern strings. -/
structure EchoFilterOptions where
  field : String
  includes : Option (List (Option String))
deriving DecidableEq

/-- Condition options: quadratic coefficients, thresholds, report field,
optional filters, and the condition's own gating includes. -/
structure EchoConditionOptions where
  score : List Int
  warning : Int
  error : Int
  field : String
  filters : Option (List EchoFilterOptions)
  includes : Option (List (Option String))
deriving DecidableEq

/-- Top-level plugin options. -/
structure EchoOptions where
  range : Option Int
  scope : String
  conditions : List EchoConditionOptions
deriving DecidableEq

/-- Severity of an emitted diagnostic (`writeWarning` / `writeError`). -/
inductive Severity where
  | warning
  | error
deriving DecidableEq

/-- One message sent to the analysis output sink. -/
structure Diagnostic where
  severity : Severity
  message : String
  location : Location
deriving DecidableEq

/-- An ordered group of tokens sharing a scope. -/
structure TokenContainer where
  tokens : List Token
deriving DecidableEq

/-- The analysed content: its full token stream and the upstream scope
resolver `getScopedTokens`, modelled as an opaque grouping function. -/
structure Content where
  tokens : List Token
  getScopedTokens : String → List TokenContainer

/-- The pattern that `inFilter` builds for one `include` entry: when the
entry starts and ends with a slash the delimiters are stripped
(`substring(1, length - 2)`), otherwise the entry is wrapped in anchors.
The end-of-string test reads `include[-1]`, exactly as the source does. -/
def buildPattern (s : String) : String :=
  if charAt s 0 = some '/' ∧ charAt s (-1) = some '/' then
    jsSubstring s 1 ((s.length : Int) - 2)
  else
    "^" ++ s ++ "$"

/-- The scan of a non-empty `includes` list: the first matching entry wins;
an `undefined` entry throws (`include[0]` on `undefined`), modelled as
`none`. -/
def inFilterLoop (value : Option String) : List (Option String) → Option Bool
  | [] => some false
  | none :: _ => none
  | some s :: rest =>
    if regexTest (buildPattern s) (jsToString value) then some true
    else inFilterLoop value rest

/-- `inFilter(options, value)`: a missing or empty `includes` list is an
auto-include; otherwise the value must match one of the entries. -/
def inFilter (includes : Option (List (Option String))) (value : Option String) : Option Bool :=
  match includes with
  | none => some true
  | some incs => if incs.length = 0 then some true else inFilterLoop value incs

/-- The inner loop of `filterTokens` over the condition's filters: the first
filter returning a match includes the token; a thrown error propagates. -/
def firstFilterMatch (t : Token) : List EchoFilterOptions → Option Bool
  | [] => some false
  | f :: fs =>
    match inFilter f.includes (tokenField t f.field) with
    | none => none
    | some true => some true
    | some false => firstFilterMatch t fs

/-- `filterTokens(baseToken, filters, tokens)`: skip the base token by
index, keep every other token matched by at least one filter. -/
def filterTokens (base : Token) (fs : List EchoFilterOptions) : List Token → Option (List Token)
  | [] => some []
  | t :: rest =>
    if base.index = t.index then filterTokens base fs rest
    else
      match firstFilterMatch t fs with
      | none => none
      | some true => (filterTokens base fs rest).map (fun l => t :: l)
      | some false => filterTokens base fs rest

/-- `getTestTokens(options, index, tokens)`: the proximity window, every
token at distance in `(0, range]` of the given index. -/
def getTestTokens (options : EchoOptions) (index : Int) (tokens : List Token) : List Token :=
  let range := options.range.getD 0
  tokens.filter fun token =>
    let distance : Int := ((token.index - index).natAbs : Int)
    decide (0 < distance ∧ distance ≤ range)

/-- `calculateScore(score, x)`: the quadratic `a + b*x + c*x*x` with each
coefficient contributing only when present. -/
def calculateScore (score : List Int) (x : Int) : Int :=
  let v0 : Int := 0
  let v1 := if 0 < score.length then v0 + score.getD 0 0 else v0
  let v2 := if 1 < score.length then v1 + score.getD 1 0 * x else v1
  if 2 < score.length then v2 + score.getD 2 0 * x * x else v2

/-- `scoreTokens(options, condition, index, tokens)`: sum the quadratic at
`offset = range - |token.index - index|` over the given tokens. -/
def scoreTokens (options : EchoOptions) (condition : EchoConditionOptions)
    (index : Int) (tokens : List Token) : Int :=
  let range := options.range.getD 0
  tokens.foldl
    (fun acc token =>
      let distance : Int := ((token.index - index).natAbs : Int)
      let offset := range - distance
      acc + calculateScore condition.score offset)
    0

/-- The filters actually applied by `processCondition`: a missing (`null` or
`undefined`) `filters` list is replaced by one synthesized filter on the
condition's field whose single include is the centre token's own value; a
present list — even an empty one — is used as given. -/
def resolveFilters (condition : EchoConditionOptions) (token : Token) : List EchoFilterOptions :=
  match condition.filters with
  | none => [{ field := condition.field, includes := some [tokenField token condition.field] }]
  | some fs => fs

/-- The user-facing message built by `processCondition`. -/
def mkMessage (options : EchoOptions) (condition : EchoConditionOptions) (token : Token)
    (filteredCount : Nat) (tokenScore : Int) : String :=
  token.text ++ ": " ++ jsToString (tokenField token condition.field) ++ " was used "
    ++ toString (filteredCount + 1) ++ " times in " ++ toString (options.range.getD 0)
    ++ " tokens. (Score " ++ toString tokenScore ++ ")"

/-- `processCondition`: gate the centre token on the condition's own
includes, resolve filters, filter the window, score, threshold, and emit at
most one diagnostic. -/
def processCondition (options : EchoOptions) (condition : EchoConditionOptions)
    (token : Token) (testTokens : List Token) : Option (List Diagnostic) :=
  match inFilter condition.includes (tokenField token condition.field) with
  | none => none
  | some false => some []
  | some true =>
    match filterTokens token (resolveFilters condition token) testTokens with
    | none => none
    | some filteredTokens =>
      if filteredTokens.length = 0 then some []
      else
        let tokenScore := scoreTokens options condition token.index filteredTokens
        if tokenScore < condition.warning then some []
        else
          let message := mkMessage options condition token filteredTokens.length tokenScore
          if condition.error ≤ tokenScore then
            some [{ severity := Severity.error, message := message, location := token.location }]
          else
            some [{ severity := Severity.warning, message := message, location := token.location }]

/-- `processContainer`: for each token compute the window once, then run
every condition on it; diagnostics are emitted in token order, then
condition order. -/
def processContainer (options : EchoOptions) (container : TokenContainer) :
    Option (List Diagnostic) :=
  (container.tokens.mapM fun token =>
    let testTokens := getTestTokens options token.index container.tokens
    (options.conditions.mapM fun condition =>
      processCondition options condition token testTokens).map List.flatten).map List.flatten

/-- `process`: the plugin entry point.  A falsy `range` (absent or zero)
reports a single configuration error anchored at the first token's location
— reading that location throws when the token stream is empty — and
returns; otherwise every scoped container is processed. -/
def process (name : String) (options : EchoOptions) (content : Content) :
    Option (List Diagnostic) :=
  if options.range = none ∨ options.range = some 0 then
    match content.tokens with
    | [] => none
    | tok :: _ =>
      some [{ severity := Severity.error,
              message := name ++ ": options.range must be set.",
              location := tok.location }]
  else
    ((content.getScopedTokens options.scope).mapM (processContainer options)).map List.flatten

/-- `noSpecials` is a bounded quantifier over the string's characters, hence
decidable. -/
instance noSpecialsDecidable (v : String) : Decidable (Echo.noSpecials v) :=
  inferInstanceAs (Decidable (∀ c ∈ v.data, c ∉ Echo.specialChars))

end Echo

open Echo

/-- A sample token: surface form `think` at index 0. -/
def tokEcho0 : Token := ⟨0, "think", "think", "think", "VBP", ⟨"a", 0, 0⟩⟩

/-- A sample token: a literal repeat of `think` at index 1. -/
def tokEcho1 : Token := ⟨1, "think", "think", "think", "VBP", ⟨"a", 0, 6⟩⟩

/-- A condition in the shape of the repository's tests: quadratic score,
warning 25, error 100, on the `normalized` field, no filters configured. -/
def condNorm : EchoConditionOptions := ⟨[0, 0, 1], 25, 100, "normalized", none, none⟩

/-- The same condition with a present-but-empty filters list. -/
def condEmptyFilters : EchoConditionOptions := ⟨[0, 0, 1], 25, 100, "normalized", some [], none⟩

/-- The same condition gated by an includes list that `think` fails. -/
def condGateZZ : EchoConditionOptions := ⟨[0, 0, 1], 25, 100, "normalized", none, some [some "zz"]⟩

/-- An explicit filter on the `text` field for the literal `think`. -/
def filterText : EchoFilterOptions := ⟨"text", some [some "think"]⟩

/-- A condition whose report field names no token attribute, with an
explicit well-formed filter. -/
def condBogus : EchoConditionOptions := ⟨[0, 0, 1], 25, 100, "bogus", some [filterText], none⟩

/-- Options with range 100, as in the repository's tests. -/
def opts100 : EchoOptions := ⟨some 100, "document", [condNorm]⟩

/-- Options carrying the unknown-field condition. -/
def optsBogus : EchoOptions := ⟨some 100, "document", [condBogus]⟩

/-- Options with a negative range. -/
def optsNeg : EchoOptions := ⟨some (-1), "document", [condNorm]⟩

/-- Options with range zero. -/
def optsZero : EchoOptions := ⟨some 0, "document", [condNorm]⟩

/-- Options with the range left unset. -/
def optsAbsent : EchoOptions := ⟨none, "document", [condNorm]⟩

/-- A two-token content with a literal echo, scoped to one container. -/
def contentEcho : Content := ⟨[tokEcho0, tokEcho1], fun _ => [⟨[tokEcho0, tokEcho1]⟩]⟩

/-- A content whose token stream is empty. -/
def contentEmpty : Content := ⟨[], fun _ => []⟩

/-- The delimiter test of `buildPattern` can never fire, because `s[-1]` is
`undefined` on a JavaScript string: every include is wrapped in anchors. -/
theorem buildPattern_eq (s : String) : Echo.buildPattern s = "^" ++ s ++ "$" := by
  have h : Echo.charAt s (-1) = none := by simp [Echo.charAt]
  simp [Echo.buildPattern, h]

/-- On a metacharacter-free pattern followed by the dollar anchor, the
matcher at a fixed position is exactly list equality. -/
theorem matchHere_lit : ∀ (v w : List Char), (∀ c ∈ v, c ∉ Echo.specialChars) →
    Echo.matchHere (v ++ ['$']) w = decide (v = w) := by
  intro v
  induction v with
  | nil =>
    intro w _
    cases w <;> simp [Echo.matchHere]
  | cons c v ih =>
    intro w h
    have hdollar : c ≠ '$' := by
      intro e; exact (h c (by simp)) (by rw [e]; decide)
    have hdot : c ≠ '.' := by
      intro e; exact (h c (by simp)) (by rw [e]; decide)
    have hne : ¬(c = '$' ∧ v ++ ['$'] = []) := by
      rintro ⟨e, _⟩; exact hdollar e
    cases w with
    | nil =>
      simp [Echo.matchHere, hne]
    | cons d w' =>
      have := ih w' (fun x hx => h x (by simp [hx]))
      simp [Echo.matchHere, hne, this, hdot, List.cons.injEq]

/-- Wrapping a metacharacter-free string in the two anchors and testing is
exactly string equality. -/
theorem regexTest_anchored_lit (v : String) (hv : Echo.noSpecials v) (w : String) :
    Echo.regexTest ("^" ++ v ++ "$") w = decide (v = w) := by
  have hd : ("^" ++ v ++ "$").data = '^' :: (v.data ++ ['$']) := by
    simp [String.data_append]
  show (match ("^" ++ v ++ "$").data with
    | [] => Echo.matchSearch [] w.data
    | p :: ps => if p = '^' then Echo.matchHere ps w.data else Echo.matchSearch (p :: ps) w.data) = _
  rw [hd]
  simp only [if_pos rfl]
  rw [matchHere_lit v.data w.data hv]
  exact decide_eq_decide.mpr
    (by constructor <;> intro h <;> [exact String.ext h; exact congrArg String.data h])

/-- A token enters the filtered list exactly when it is a window token with
an index different from the base token's and the filter scan accepts it. -/
theorem filterTokens_mem_iff (base : Token) (fs : List EchoFilterOptions) :
    ∀ {ts l : List Token}, Echo.filterTokens base fs ts = some l →
      ∀ t : Token, (t ∈ l ↔ t ∈ ts ∧ t.index ≠ base.index ∧
        Echo.firstFilterMatch t fs = some true) := by
  intro ts
  induction ts with
  | nil =>
    intro l hl t
    simp [Echo.filterTokens] at hl
    subst hl
    simp
  | cons u rest ih =>
    intro l hl t
    rw [Echo.filterTokens] at hl
    by_cases hidx : base.index = u.index
    · rw [if_pos hidx] at hl
      rw [ih hl t]
      constructor
      · rintro ⟨hm, hne, hff⟩
        exact ⟨by simp [hm], hne, hff⟩
      · rintro ⟨hm, hne, hff⟩
        rcases List.mem_cons.mp hm with he | hm2
        · exact absurd (he ▸ hidx.symm) hne
        · exact ⟨hm2, hne, hff⟩
    · rw [if_neg hidx] at hl
      rcases hff : Echo.firstFilterMatch u fs with _ | bu
      · rw [hff] at hl; cases hl
      · rw [hff] at hl
        cases bu with
        | true =>
          rcases Option.map_eq_some'.mp hl with ⟨l2, hl2, rfl⟩
          rw [List.mem_cons, ih hl2 t]
          constructor
          · rintro (rfl | ⟨hm, hne, hf⟩)
            · exact ⟨by simp, fun e => hidx e.symm, hff⟩
            · exact ⟨by simp [hm], hne, hf⟩
          · rintro ⟨hm, hne, hf⟩
            rcases List.mem_cons.mp hm with rfl | hm2
            · exact Or.inl rfl
            · exact Or.inr ⟨hm2, hne, hf⟩
        | false =>
          rw [ih hl t]
          constructor
          · rintro ⟨hm, hne, hf⟩
            exact ⟨by simp [hm], hne, hf⟩
          · rintro ⟨hm, hne, hf⟩
            rcases List.mem_cons.mp hm with rfl | hm2
            · rw [hff] at hf; cases hf
            · exact ⟨hm2, hne, hf⟩

/-- When the whole filtering pass returned, the filter scan terminated
without throwing on every non-base window token. -/
theorem filterTokens_no_crash (base : Token) (fs : List EchoFilterOptions) :
    ∀ {ts l : List Token}, Echo.filterTokens base fs ts = some l →
      ∀ t ∈ ts, t.index ≠ base.index → ∃ b : Bool, Echo.firstFilterMatch t fs = some b := by
  intro ts
  induction ts with
  | nil => intro l _ t hm; cases hm
  | cons u rest ih =>
    intro l hl t hm hne
    rw [Echo.filterTokens] at hl
    by_cases hidx : base.index = u.index
    · rw [if_pos hidx] at hl
      rcases List.mem_cons.mp hm with rfl | hm2
      · exact absurd hidx.symm hne
      · exact ih hl t hm2 hne
    · rw [if_neg hidx] at hl
      rcases hff : Echo.firstFilterMatch u fs with _ | bu
      · rw [hff] at hl; cases hl
      · rw [hff] at hl
        rcases List.mem_cons.mp hm with rfl | hm2
        · exact ⟨bu, hff⟩
        · cases bu with
          | true =>
            rcases Option.map_eq_some'.mp hl with ⟨l2, hl2, rfl⟩
            exact ih hl2 t hm2 hne
          | false => exact ih hl t hm2 hne

/-- The filter scan succeeds with `true` exactly when some filter in the
list matches the token. -/
theorem firstFilterMatch_true_iff (t : Token) :
    ∀ {fs : List EchoFilterOptions} {b : Bool}, Echo.firstFilterMatch t fs = some b →
      (b = true ↔ ∃ f ∈ fs, Echo.inFilter f.includes (Echo.tokenField t f.field) = some true) := by
  intro fs
  induction fs with
  | nil =>
    intro b hb
    simp [Echo.firstFilterMatch] at hb
    subst hb
    simp
  | cons f fs ih =>
    intro b hb
    rw [Echo.firstFilterMatch] at hb
    rcases hf : Echo.inFilter f.includes (Echo.tokenField t f.field) with _ | bf
    · rw [hf] at hb; cases hb
    · rw [hf] at hb
      cases bf with
      | true =>
        cases hb
        simp [hf]
      | false =>
        rw [ih hb]
        constructor
        · rintro ⟨g, hg, hgt⟩; exact ⟨g, by simp [hg], hgt⟩
        · rintro ⟨g, hg, hgt⟩
          rcases List.mem_cons.mp hg with he | hm
          · rw [← he] at hf; rw [hf] at hgt; cases hgt
          · exact ⟨g, hm, hgt⟩

/-- The includes scan succeeds with `true` exactly when some entry's built
pattern matches the coerced value. -/
theorem inFilterLoop_true_iff (v : Option String) :
    ∀ {incs : List (Option String)} {b : Bool}, Echo.inFilterLoop v incs = some b →
      (b = true ↔ ∃ s : String, some s ∈ incs ∧
        Echo.regexTest (Echo.buildPattern s) (Echo.jsToString v) = true) := by
  intro incs
  induction incs with
  | nil =>
    intro b hb
    simp [Echo.inFilterLoop] at hb
    subst hb
    simp
  | cons i rest ih =>
    intro b hb
    cases i with
    | none => simp [Echo.inFilterLoop] at hb
    | some s =>
      by_cases ht : Echo.regexTest (Echo.buildPattern s) (Echo.jsToString v) = true
      · rw [Echo.inFilterLoop, if_pos ht] at hb
        cases hb
        simp [ht]
      · rw [Echo.inFilterLoop, if_neg ht] at hb
        rw [ih hb]
        constructor
        · rintro ⟨t, hmem, htest⟩
          exact ⟨t, by simp [hmem], htest⟩
        · rintro ⟨t, hmem, htest⟩
          rcases List.mem_cons.mp hmem with he | hm
          · have het : t = s := Option.some.inj he
            rw [het] at htest
            exact absurd htest ht
          · exact ⟨t, hm, htest⟩

/-- Window membership: a token of the proximity window is a container token
at distance in `(0, range]`. -/
theorem mem_getTestTokens_iff (o : EchoOptions) (i : Int) (toks : List Token) (t : Token) :
    t ∈ Echo.getTestTokens o i toks ↔ t ∈ toks ∧
      0 < ((t.index - i).natAbs : Int) ∧ ((t.index - i).natAbs : Int) ≤ o.range.getD 0 := by
  simp [Echo.getTestTokens, List.mem_filter, and_assoc]

/-- Folding addition of a per-token value is the sum of the mapped list. -/
theorem foldl_add_sum (f : Token → Int) :
    ∀ (ts : List Token) (acc : Int),
      ts.foldl (fun a t => a + f t) acc = acc + (ts.map f).sum := by
  intro ts
  induction ts with
  | nil => intro acc; simp
  | cons t ts ih => intro acc; simp [List.foldl, ih, add_assoc]

/-- Closed form of the scoring polynomial: missing coefficients are zero. -/
theorem calculateScore_closed (s : List Int) (x : Int) :
    Echo.calculateScore s x = s.getD 0 0 + s.getD 1 0 * x + s.getD 2 0 * x * x := by
  match s with
  | [] => simp [Echo.calculateScore]
  | [a] => simp [Echo.calculateScore]
  | [a, b] => simp [Echo.calculateScore]
  | a :: b :: c :: rest => simp [Echo.calculateScore, List.getD]

/-- The token-list score is the sum of the polynomial at each token's
offset `range - distance`. -/
theorem scoreTokens_eq_sum (o : EchoOptions) (c : EchoConditionOptions) (i : Int)
    (ts : List Token) :
    Echo.scoreTokens o c i ts
      = (ts.map fun t =>
          Echo.calculateScore c.score (o.range.getD 0 - ((t.index - i).natAbs : Int))).sum := by
  rw [Echo.scoreTokens]
  rw [foldl_add_sum
    (fun t => Echo.calculateScore c.score (o.range.getD 0 - ((t.index - i).natAbs : Int))) ts 0]
  simp

/-- A single filter with one string include never throws: the scan returns
the anchored-pattern test of the token's field value. -/
theorem firstFilterMatch_single_literal (t : Token) (fld : String) (v : String) :
    Echo.firstFilterMatch t [⟨fld, some [some v]⟩]
      = some (Echo.regexTest ("^" ++ v ++ "$") (Echo.jsToString (Echo.tokenField t fld))) := by
  rw [Echo.firstFilterMatch]
  show (match Echo.inFilter (some [some v])
      (Echo.tokenField t ((⟨fld, some [some v]⟩ : EchoFilterOptions)).field) with
    | none => none
    | some true => some true
    | some false => Echo.firstFilterMatch t []) = _
  have hf : Echo.inFilter (some [some v]) (Echo.tokenField t fld)
      = some (Echo.regexTest ("^" ++ v ++ "$") (Echo.jsToString (Echo.tokenField t fld))) := by
    rw [Echo.inFilter]
    rw [if_neg (by simp)]
    rw [Echo.inFilterLoop, buildPattern_eq]
    cases hr : Echo.regexTest ("^" ++ v ++ "$") (Echo.jsToString (Echo.tokenField t fld)) <;>
      simp [hr, Echo.inFilterLoop]
  rw [hf]
  cases hr : Echo.regexTest ("^" ++ v ++ "$") (Echo.jsToString (Echo.tokenField t fld)) <;>
    simp [Echo.firstFilterMatch]

/-- When the filter scan is total with result `g`, filtering is the plain
list filter on index difference and `g`. -/
theorem filterTokens_total (base : Token) (fs : List EchoFilterOptions) (g : Token → Bool)
    (hg : ∀ t : Token, Echo.firstFilterMatch t fs = some (g t)) :
    ∀ ts : List Token, Echo.filterTokens base fs ts
      = some (ts.filter fun t => decide (base.index ≠ t.index) && g t) := by
  intro ts
  induction ts with
  | nil => simp [Echo.filterTokens]
  | cons u rest ih =>
    rw [Echo.filterTokens]
    by_cases hidx : base.index = u.index
    · rw [if_pos hidx, ih]
      simp [List.filter, hidx]
    · rw [if_neg hidx, hg u, ih]
      cases hgu : g u <;> simp [List.filter, hidx, hgu]

/-- Claim C1: the pattern matcher is claimed to treat a pattern as a
delimited regular expression exactly when it has length at least 2 and both
starts and ends with a slash, and to compare every other pattern by exact
string equality.  The code disagrees on both points: the end-of-string test
reads `include[-1]`, which is `undefined` on a JavaScript string, so the
delimiter branch never fires — the delimited pattern `/a/` fails against
the value `a` although its body matches — and a non-delimited pattern is
compiled as the anchored regex `^p$` rather than compared literally, so
`a.c` matches the unequal value `abc`. -/
theorem claim_C1_pattern_matcher_eval :
    Echo.charAt "/a/" (-1) = none ∧
    Echo.inFilter (some [some "/a/"]) (some "a") = some false ∧
    Echo.regexTest ("^" ++ "a" ++ "$") "a" = true ∧
    Echo.inFilter (some [some "a.c"]) (some "abc") = some true ∧
    "a.c" ≠ "abc" := by decide

/-- Claim C2: the scoring function returns `a + b*x + c*x*x` with the
coefficients read from the first three list entries and missing entries
counting as zero, and the score of a token list is the sum of this function
at `offset = range - |t.index - centerIndex|` over exactly the listed
tokens — in `processCondition` the list passed is the filtered set. -/
theorem claim_C2_quadratic_scoring (s : List Int) (x : Int) (o : EchoOptions)
    (c : EchoConditionOptions) (i : Int) (ts : List Token) :
    Echo.calculateScore s x = s.getD 0 0 + s.getD 1 0 * x + s.getD 2 0 * x * x
    ∧ Echo.scoreTokens o c i ts
        = (ts.map fun t =>
            Echo.calculateScore c.score (o.range.getD 0 - ((t.index - i).natAbs : Int))).sum :=
  ⟨calculateScore_closed s x, scoreTokens_eq_sum o c i ts⟩

/-- Claim C3: for a (token, condition) pair that reaches thresholding —
gate passed and non-empty filtered set — a score below `warning` emits
nothing, a score in `[warning, error)` emits exactly one warning-severity
diagnostic, and a score at or above `error` emits exactly one
error-severity diagnostic, the boundary being inclusive toward error.  The
thresholds satisfy the documented expectation `warning ≤ error`. -/
theorem claim_C3_thresholds (o : EchoOptions) (c : EchoConditionOptions) (token : Token)
    (tts fts : List Token)
    (hwe : c.warning ≤ c.error)
    (hgate : Echo.inFilter c.includes (Echo.tokenField token c.field) = some true)
    (hfil : Echo.filterTokens token (Echo.resolveFilters c token) tts = some fts)
    (hne : fts ≠ []) :
    (Echo.scoreTokens o c token.index fts < c.warning →
      Echo.processCondition o c token tts = some [])
    ∧ (c.warning ≤ Echo.scoreTokens o c token.index fts ∧
        Echo.scoreTokens o c token.index fts < c.error →
      Echo.processCondition o c token tts
        = some [⟨Severity.warning,
            Echo.mkMessage o c token fts.length (Echo.scoreTokens o c token.index fts),
            token.location⟩])
    ∧ (c.error ≤ Echo.scoreTokens o c token.index fts →
      Echo.processCondition o c token tts
        = some [⟨Severity.error,
            Echo.mkMessage o c token fts.length (Echo.scoreTokens o c token.index fts),
            token.location⟩]) := by
  have hlen : ¬fts.length = 0 := by
    simpa [List.length_eq_zero] using hne
  refine ⟨?_, ?_, ?_⟩
  · intro hs
    simp only [Echo.processCondition, hgate, hfil]
    rw [if_neg hlen, if_pos hs]
  · rintro ⟨hs1, hs2⟩
    simp only [Echo.processCondition, hgate, hfil]
    rw [if_neg hlen, if_neg (not_lt.mpr hs1), if_neg (not_le.mpr hs2)]
  · intro hs
    simp only [Echo.processCondition, hgate, hfil]
    rw [if_neg hlen, if_neg (not_lt.mpr (le_trans hwe hs)), if_pos hs]

/-- Witness for claim C3 at a concrete echo: score 9801 reaches the error
threshold 100 and a single error-severity diagnostic is emitted. -/
theorem claim_C3_witness :
    Echo.processCondition opts100 condNorm tokEcho0 [tokEcho1]
      = some [⟨Severity.error,
          Echo.mkMessage opts100 condNorm tokEcho0 ([tokEcho1].length)
            (Echo.scoreTokens opts100 condNorm tokEcho0.index [tokEcho1]),
          tokEcho0.location⟩] :=
  (claim_C3_thresholds opts100 condNorm tokEcho0 [tokEcho1] [tokEcho1]
    (by decide) (by decide) (by decide) (by decide)).2.2 (by decide)

/-- Claim C4: every token of the proximity window satisfies
`0 < |t.index - centerIndex| ≤ range`, and hence so does every token of a
filtered candidate set built from the window; moreover every filtered token
has an index different from the centre token's, so the centre token never
appears in its own candidate set regardless of the filter outcome. -/
theorem claim_C4_window_bounds (o : EchoOptions) (toks : List Token) (base : Token)
    (fs : List EchoFilterOptions) (l : List Token) :
    (∀ t ∈ Echo.getTestTokens o base.index toks,
      0 < |t.index - base.index| ∧ |t.index - base.index| ≤ o.range.getD 0)
    ∧ (Echo.filterTokens base fs (Echo.getTestTokens o base.index toks) = some l →
        ∀ t ∈ l, (0 < |t.index - base.index| ∧ |t.index - base.index| ≤ o.range.getD 0)
          ∧ t.index ≠ base.index) := by
  have habs : ∀ t : Token, |t.index - base.index| = ((t.index - base.index).natAbs : Int) :=
    fun t => Int.abs_eq_natAbs _
  constructor
  · intro t ht
    rcases (mem_getTestTokens_iff o base.index toks t).mp ht with ⟨_, h1, h2⟩
    rw [habs t]
    exact ⟨h1, h2⟩
  · intro hfil t htl
    rcases (filterTokens_mem_iff base fs hfil t).mp htl with ⟨hm, hne, _⟩
    rcases (mem_getTestTokens_iff o base.index toks t).mp hm with ⟨_, h1, h2⟩
    rw [habs t]
    exact ⟨⟨h1, h2⟩, hne⟩

/-- Witness for claim C4 at a concrete window of radius 100. -/
theorem claim_C4_witness :
    (0 < |tokEcho1.index - tokEcho0.index| ∧
      |tokEcho1.index - tokEcho0.index| ≤ opts100.range.getD 0)
    ∧ tokEcho1.index ≠ tokEcho0.index :=
  (claim_C4_window_bounds opts100 [tokEcho0, tokEcho1] tokEcho0 [filterText] [tokEcho1]).2
    (by decide) tokEcho1 (by decide)

/-- Claim C5, amended: only an absent (`null`/`undefined`) `filters` list is
replaced by the single synthesized filter on the condition's field whose
one include is the centre token's own value — a present-but-empty list is
kept and always produces an empty filtered set — and, when the centre value
uses no regex metacharacter, the synthesized filter keeps precisely the
window tokens whose coerced field value equals the centre token's value. -/
theorem claim_C5_default_filter (c c2 : EchoConditionOptions) (token : Token)
    (tts : List Token) (v : String)
    (hnone : c.filters = none)
    (hv : Echo.tokenField token c.field = some v)
    (hplain : Echo.noSpecials v)
    (hempty : c2.filters = some []) :
    Echo.resolveFilters c token = [⟨c.field, some [some v]⟩]
    ∧ Echo.filterTokens token (Echo.resolveFilters c token) tts
        = some (tts.filter fun t =>
            decide (token.index ≠ t.index)
              && decide (v = Echo.jsToString (Echo.tokenField t c.field)))
    ∧ Echo.filterTokens token (Echo.resolveFilters c2 token) tts = some [] := by
  have hres : Echo.resolveFilters c token = [⟨c.field, some [some v]⟩] := by
    unfold Echo.resolveFilters
    rw [hnone, hv]
  refine ⟨hres, ?_, ?_⟩
  · rw [hres]
    have hg : ∀ t : Token, Echo.firstFilterMatch t [⟨c.field, some [some v]⟩]
        = some (decide (v = Echo.jsToString (Echo.tokenField t c.field))) := by
      intro t
      rw [firstFilterMatch_single_literal t c.field v,
        regexTest_anchored_lit v hplain (Echo.jsToString (Echo.tokenField t c.field))]
    exact filterTokens_total token [⟨c.field, some [some v]⟩]
      (fun t => decide (v = Echo.jsToString (Echo.tokenField t c.field))) hg tts
  · have hres2 : Echo.resolveFilters c2 token = [] := by
      unfold Echo.resolveFilters
      rw [hempty]
    rw [hres2]
    have hg : ∀ t : Token, Echo.firstFilterMatch t [] = some ((fun _ => false) t) :=
      fun t => rfl
    rw [filterTokens_total token [] (fun _ => false) hg tts]
    simp

/-- Witness for claim C5: the filterless test condition resolves to the
synthesized filter for the centre token's value `think`. -/
theorem claim_C5_witness :
    Echo.resolveFilters condNorm tokEcho0 = [⟨"normalized", some [some "think"]⟩] :=
  (claim_C5_default_filter condNorm condEmptyFilters tokEcho0 [tokEcho1] "think"
    rfl rfl (by decide) rfl).1

/-- Counterexample to claim C5 as stated: with a present-but-empty filters
list the synthesized filter is not used — a literal repeat of the centre
token's field value is in the window, yet no diagnostic is produced,
whereas the same condition with `filters` absent emits an error. -/
theorem claim_C5_empty_filters_counterexample :
    condEmptyFilters.filters = some [] ∧
    Echo.tokenField tokEcho1 condEmptyFilters.field
      = Echo.tokenField tokEcho0 condEmptyFilters.field ∧
    Echo.processCondition opts100 condEmptyFilters tokEcho0 [tokEcho1] = some [] ∧
    (Echo.processCondition opts100 condNorm tokEcho0 [tokEcho1]).map
        (fun ds => ds.map Diagnostic.severity) = some [Severity.error] := by
  decide

/-- Claim C6: a candidate token enters the filtered set exactly when at
least one filter matches it (logical OR across filters); a filter with a
missing or empty includes list matches every value, and a non-empty
includes scan succeeds exactly when some entry's pattern matches the
candidate's coerced field value. -/
theorem claim_C6_filter_or_semantics (base : Token) (fs : List EchoFilterOptions)
    (ts l : List Token) (h : Echo.filterTokens base fs ts = some l) :
    (∀ t : Token, t ∈ l ↔ t ∈ ts ∧ t.index ≠ base.index ∧
      ∃ f ∈ fs, Echo.inFilter f.includes (Echo.tokenField t f.field) = some true)
    ∧ (∀ v : Option String,
        Echo.inFilter none v = some true ∧ Echo.inFilter (some []) v = some true)
    ∧ (∀ (incs : List (Option String)) (v : Option String) (b : Bool),
        Echo.inFilterLoop v incs = some b →
          (b = true ↔ ∃ s : String, some s ∈ incs ∧
            Echo.regexTest (Echo.buildPattern s) (Echo.jsToString v) = true)) := by
  refine ⟨?_, ?_, ?_⟩
  · intro t
    rw [filterTokens_mem_iff base fs h t]
    constructor
    · rintro ⟨hm, hne, hff⟩
      exact ⟨hm, hne, (firstFilterMatch_true_iff t hff).mp rfl⟩
    · rintro ⟨hm, hne, hex⟩
      rcases filterTokens_no_crash base fs h t hm hne with ⟨b, hb⟩
      have hbt : b = true := (firstFilterMatch_true_iff t hb).mpr hex
      subst hbt
      exact ⟨hm, hne, hb⟩
  · intro v
    exact ⟨rfl, by simp [Echo.inFilter]⟩
  · intro incs v b hb
    exact inFilterLoop_true_iff v hb

/-- Witness for claim C6 at a concrete filtered set. -/
theorem claim_C6_witness :
    (tokEcho1 ∈ ([tokEcho1] : List Token) ↔
      tokEcho1 ∈ ([tokEcho1] : List Token) ∧ tokEcho1.index ≠ tokEcho0.index ∧
        ∃ f ∈ [filterText],
          Echo.inFilter f.includes (Echo.tokenField tokEcho1 f.field) = some true) :=
  (claim_C6_filter_or_semantics tokEcho0 [filterText] [tokEcho1] [tokEcho1] (by decide)).1 tokEcho1

/-- Claim C7, amended: an absent or zero range reports exactly one
configuration error and returns before any container is processed (for any
scope resolver); a negative range is not caught by the falsy-range check. -/
theorem claim_C7_falsy_range (name : String) (o : EchoOptions) (content : Content)
    (tok : Token) (rest : List Token)
    (hr : o.range = none ∨ o.range = some 0)
    (ht : content.tokens = tok :: rest) :
    Echo.process name o content
      = some [⟨Severity.error, name ++ ": options.range must be set.", tok.location⟩] := by
  simp only [Echo.process]
  rw [if_pos hr, ht]

/-- Witness for claim C7 with range zero. -/
theorem claim_C7_witness :
    Echo.process "Echo" optsZero contentEcho
      = some [⟨Severity.error, "Echo" ++ ": options.range must be set.", tokEcho0.location⟩] :=
  claim_C7_falsy_range "Echo" optsZero contentEcho tokEcho0 [tokEcho1] (Or.inr rfl) rfl

/-- Counterexample to claim C7 as stated: with the negative range -1 the
engine emits no configuration error at all — it proceeds into container
processing and, every window being empty, produces zero diagnostics even on
a content with a literal echo. -/
theorem claim_C7_negative_range_counterexample :
    optsNeg.range = some (-1) ∧ Echo.process "Echo" optsNeg contentEcho = some [] := by
  decide

/-- Claim C8, amended: the falsy-range test is the only configuration
check; for every configuration with a present nonzero range — including one
naming an unknown field — the engine proceeds directly to container
processing and raises no configuration error. -/
theorem claim_C8_no_field_validation (name : String) (o : EchoOptions) (content : Content)
    (r : Int) (h1 : o.range = some r) (h2 : r ≠ 0) :
    Echo.process name o content
      = ((content.getScopedTokens o.scope).mapM (Echo.processContainer o)).map List.flatten := by
  simp only [Echo.process]
  rw [if_neg]
  rintro (h | h)
  · rw [h1] at h; cases h
  · rw [h1] at h
    exact h2 (Option.some.inj h)

/-- Witness for claim C8: the unknown-field configuration goes straight to
container processing. -/
theorem claim_C8_witness :
    Echo.process "Echo" optsBogus contentEcho
      = ((contentEcho.getScopedTokens optsBogus.scope).mapM
          (Echo.processContainer optsBogus)).map List.flatten :=
  claim_C8_no_field_validation "Echo" optsBogus contentEcho 100 rfl (by decide)

/-- Counterexample to claim C8 as stated: a condition whose field names no
token attribute raises no configuration error; the engine silently
processes the container and emits two per-token error diagnostics. -/
theorem claim_C8_unknown_field_counterexample :
    Echo.tokenField tokEcho0 condBogus.field = none ∧
    (Echo.process "Echo" optsBogus contentEcho).map (fun ds => ds.map Diagnostic.severity)
      = some [Severity.error, Severity.error] := by
  decide

/-- Claim C9: when the centre token's own field value fails the condition's
gating includes, the condition contributes no diagnostic and no further
work for that token — a silent skip; a missing or empty includes list
admits every token. -/
theorem claim_C9_gate_skip (o : EchoOptions) (c : EchoConditionOptions) (token : Token)
    (tts : List Token)
    (h : Echo.inFilter c.includes (Echo.tokenField token c.field) = some false) :
    Echo.processCondition o c token tts = some []
    ∧ ∀ v : Option String,
        Echo.inFilter none v = some true ∧ Echo.inFilter (some []) v = some true := by
  constructor
  · simp only [Echo.processCondition, h]
  · intro v
    exact ⟨rfl, by simp [Echo.inFilter]⟩

/-- Witness for claim C9: the value `think` fails the includes `[zz]` and
the condition is silently skipped. -/
theorem claim_C9_witness :
    Echo.processCondition opts100 condGateZZ tokEcho0 [tokEcho1] = some [] :=
  (claim_C9_gate_skip opts100 condGateZZ tokEcho0 [tokEcho1] (by decide)).1

/-- Claim C10: the invalid-range error branch reads the first token's
location with no emptiness check: on an empty token stream it throws
(modelled `none`), and it is total exactly under the precondition that the
stream is non-empty, in which case it reports the single configuration
error anchored at the first token. -/
theorem claim_C10_first_token_read (name : String) (o : EchoOptions) (content : Content)
    (hr : o.range = none ∨ o.range = some 0) :
    (content.tokens = [] → Echo.process name o content = none)
    ∧ (∀ (tok : Token) (rest : List Token), content.tokens = tok :: rest →
        Echo.process name o content
          = some [⟨Severity.error, name ++ ": options.range must be set.", tok.location⟩]) := by
  constructor
  · intro ht
    simp only [Echo.process]
    rw [if_pos hr, ht]
  · intro tok rest ht
    simp only [Echo.process]
    rw [if_pos hr, ht]

/-- Witness for claim C10: the unset-range error crashes on an empty stream
and reports at the first token's location on a non-empty one. -/
theorem claim_C10_witness :
    Echo.process "Echo" optsAbsent contentEmpty = none ∧
    Echo.process "Echo" optsAbsent contentEcho
      = some [⟨Severity.error, "Echo" ++ ": options.range must be set.", tokEcho0.location⟩] :=
  ⟨(claim_C10_first_token_read "Echo" optsAbsent contentEmpty (Or.inl rfl)).1 rfl,
   (claim_C10_first_token_read "Echo" optsAbsent contentEcho (Or.inl rfl)).2 tokEcho0 [tokEcho1] rfl⟩
